import Mathlib

/-!
A shallow embedding of the gold symbol table (gold/symtab.cc) and proofs
about it.

Modelling conventions:
* Symbol and version names are raw C-string bytes, `List Nat`.
* Heap-allocated `Symbol` records live in an arena `syms_ : List Symbol`;
  a `Symbol*` pointer is the arena index, so pointer equality is index
  equality.  The hash table `table_` maps a key `(name_key, version_key)`
  to an arena index.
* `std::unordered_map` insertion in the corpus is two-phase: insert a
  null pointer, then assign the slot.  The embedding performs the
  assignment at publication time; the reject path of add_from_object,
  which erases exactly the slots it had inserted, therefore leaves the
  table literally unchanged.  (define_special_symbol's factory-reject
  path, which in the corpus leaves a null-valued slot behind, is modelled
  as leaving the table unchanged; the two states are indistinguishable to
  lookup, and a later add_from_object on such a slot trips the corpus
  assertion ret != NULL, aborting.)
* `gold_exit(false)` (fatal error, terminates the link) is modelled by
  `Except.error`.  A diagnostic printed *without* exiting
  (define_special_symbol's multiple-definition fprintf) is modelled by
  the counter `multi_def_errors_`.
* Byte-level ELF symbol decoding (per word size and endianness) is
  abstracted: an input symbol is the structure `ElfSymData` of decoded
  fields.  The template parameters size and big_endian are passed as
  ordinary arguments where the corpus consults them.
-/

set_option linter.unusedVariables false

namespace gold

/-- ELF symbol binding STB_LOCAL (elfcpp). -/
def STB_LOCAL : Nat := 0

/-- ELF symbol binding STB_GLOBAL (elfcpp). -/
def STB_GLOBAL : Nat := 1

/-- ELF symbol binding STB_WEAK (elfcpp). -/
def STB_WEAK : Nat := 2

/-- Reserved ELF section index SHN_UNDEF. -/
def SHN_UNDEF : Nat := 0

/-- First reserved ELF section index SHN_LORESERVE. -/
def SHN_LORESERVE : Nat := 0xff00

/-- Reserved ELF section index SHN_ABS. -/
def SHN_ABS : Nat := 0xfff1

/-- Reserved ELF section index SHN_COMMON. -/
def SHN_COMMON : Nat := 0xfff2

/-- Version index VER_NDX_LOCAL. -/
def VER_NDX_LOCAL : Nat := 0

/-- Version index VER_NDX_GLOBAL. -/
def VER_NDX_GLOBAL : Nat := 1

/-- High bit of a versym entry: the hidden flag. -/
def VERSYM_HIDDEN : Nat := 0x8000

/-- Low fifteen bits of a versym entry: the version index. -/
def VERSYM_VERSION : Nat := 0x7fff

/-- A symbol or version name: the bytes of a NUL-free C string. -/
abbrev SymName := List Nat

/-- One decoded ELF symbol-table entry (elfcpp Sym of a given size and
endianness): st_name, st_value, st_size, the st_info halves st_bind and
st_type, the st_other halves st_visibility and st_nonvis, and st_shndx.
The byte-level decoding is abstracted away. -/
structure ElfSymData where
  st_name : Nat
  st_value : Nat
  st_size : Nat
  st_bind : Nat
  st_type : Nat
  st_visibility : Nat
  st_nonvis : Nat
  st_shndx : Nat
deriving DecidableEq

/-- The slice of the Target interface the symbol table consults:
get_size(), is_big_endian(), has_make_symbol(), and whether the optional
make_symbol() factory returns a fresh symbol (true) or null (false). -/
structure Target where
  get_size : Nat
  is_big_endian : Bool
  has_make_symbol : Bool
  make_symbol_some : Bool
deriving DecidableEq

/-- An output section as seen from finalize and the writer: its final
address and its section index in the output file. -/
structure OutSec where
  address : Nat
  out_shndx : Nat
deriving DecidableEq

/-- The slice of an input Object the symbol table consults: name(),
is_dynamic(), target(), is_section_included(shndx), and the post-layout
map output_section(shndx) giving the output section and the offset of
the input section within it (none when the section was discarded). -/
structure InputObject where
  obj_name : SymName
  is_dynamic : Bool
  target : Target
  included_sections : List Nat
  output_sections : List (Nat × OutSec × Nat)
deriving DecidableEq

/-- An Output_data blob as seen from finalize/writer: address(),
data_size(), out_shndx(). -/
structure OutputData where
  address : Nat
  data_size : Nat
  out_shndx : Nat
deriving DecidableEq

/-- An Output_segment as seen from finalize: vaddr(), memsz(), filesz(). -/
structure OutputSegment where
  vaddr : Nat
  memsz : Nat
  filesz : Nat
deriving DecidableEq

/-- Symbol::Segment_offset_base. -/
inductive SegmentOffsetBase where
  | SEGMENT_START
  | SEGMENT_END
  | SEGMENT_BSS
deriving DecidableEq

/-- The tagged provenance of a symbol record (Symbol::source_ plus the
matching member of the union u_). -/
inductive SymbolSource where
  | FROM_OBJECT (object : InputObject) (shnum : Nat)
  | IN_OUTPUT_DATA (output_data : OutputData) (offset_is_from_end : Bool)
  | IN_OUTPUT_SEGMENT (output_segment : OutputSegment) (offset_base : SegmentOffsetBase)
  | CONSTANT
deriving DecidableEq

/-- A symbol record: the fields of class Symbol plus the value_ and
symsize_ of Sized_symbol.  The name and version are the canonicalized
strings (the corpus stores Stringpool pointers). -/
structure Symbol where
  name_ : SymName
  version_ : Option SymName
  got_offset_ : Nat
  type_ : Nat
  binding_ : Nat
  visibility_ : Nat
  nonvis_ : Nat
  is_target_special_ : Bool
  is_def_ : Bool
  is_forwarder_ : Bool
  in_dyn_ : Bool
  has_got_offset_ : Bool
  has_warning_ : Bool
  source_ : SymbolSource
  value_ : Nat
  symsize_ : Nat
deriving DecidableEq

/-- Placeholder record standing for a default-constructed Sized_symbol
(the corpus leaves it uninitialized; every caller immediately calls
init on it).  Also the out-of-range default of the arena accessor. -/
def blank_symbol : Symbol :=
  { name_ := [], version_ := none, got_offset_ := 0, type_ := 0, binding_ := 0,
    visibility_ := 0, nonvis_ := 0, is_target_special_ := false, is_def_ := false,
    is_forwarder_ := false, in_dyn_ := false, has_got_offset_ := false,
    has_warning_ := false, source_ := SymbolSource.CONSTANT, value_ := 0, symsize_ := 0 }

/-- Dereference an arena index (a Symbol*). -/
def sym_at (l : List Symbol) (i : Nat) : Symbol := l.getD i blank_symbol

/-- Placeholder object used by accessors that the corpus only calls on
FROM_OBJECT records (guarded there by assertions). -/
def default_object : InputObject :=
  { obj_name := [], is_dynamic := false,
    target := { get_size := 0, is_big_endian := false,
                has_make_symbol := false, make_symbol_some := false },
    included_sections := [], output_sections := [] }

/-- Modelled from the spec: accessor Symbol::shnum() of the header
symtab.h, which is not part of src; it reads u_.from_object.shnum and is
only meaningful for FROM_OBJECT records. -/
def Symbol.shnum (s : Symbol) : Nat :=
  match s.source_ with
  | SymbolSource.FROM_OBJECT _ n => n
  | _ => 0

/-- Modelled from the spec: accessor Symbol::object() of the missing
header symtab.h; only meaningful for FROM_OBJECT records. -/
def Symbol.object (s : Symbol) : InputObject :=
  match s.source_ with
  | SymbolSource.FROM_OBJECT o _ => o
  | _ => default_object

/-- Modelled from the spec: Symbol::is_undefined() of the missing header
symtab.h; a record is undefined when it comes from an object with
section index SHN_UNDEF. -/
def Symbol.is_undefined (s : Symbol) : Bool :=
  match s.source_ with
  | SymbolSource.FROM_OBJECT _ n => n = SHN_UNDEF
  | _ => false

/-- Modelled from the spec: Symbol::is_common() of the missing header
symtab.h; the COMMON classification of a record is section index
SHN_COMMON in an input object (spec section 3, tentative definition). -/
def Symbol.is_common (s : Symbol) : Bool :=
  match s.source_ with
  | SymbolSource.FROM_OBJECT _ n => n = SHN_COMMON
  | _ => false

/-- The symbol table state: the members of class Symbol_table
(Symbol_table::Symbol_table initializes size_, saw_undefined_, offset_,
table_, namepool_, forwarders_, commons_; warnings_ is not modelled, no
claim concerns it), plus the arena syms_ holding the heap-allocated
records, the writer count output_count_, and two diagnostic counters:
multi_def_errors_ counts define_special_symbol's non-fatal
multiple-definition fprintf, resolve_errors_ counts multiple-definition
errors raised by the Resolver. -/
structure Symbol_table where
  size_ : Nat
  saw_undefined_ : Nat
  offset_ : Nat
  table_ : List ((Nat × Nat) × Nat)
  namepool_ : List SymName
  forwarders_ : List (Nat × Nat)
  commons_ : List Nat
  syms_ : List Symbol
  output_count_ : Nat
  multi_def_errors_ : Nat
  resolve_errors_ : Nat
deriving DecidableEq

/-- The freshly constructed symbol table. -/
def empty_table : Symbol_table :=
  { size_ := 0, saw_undefined_ := 0, offset_ := 0, table_ := [], namepool_ := [],
    forwarders_ := [], commons_ := [], syms_ := [], output_count_ := 0,
    multi_def_errors_ := 0, resolve_errors_ := 0 }

/-- Fatal errors: every gold_exit(false) site of the corpus. -/
inductive LinkError where
  | bad_symbol_name_offset (objName : SymName) (st_name : Nat) (index : Nat)
  | mixed_elf (objName : SymName)
  | too_few_versions (objName : SymName)
  | versym_out_of_range (objName : SymName) (index v : Nat)
  | versym_no_name (objName : SymName) (index v : Nat)
  | unsupported_symbol_section (symName : SymName) (shnum : Nat)
deriving DecidableEq

deriving instance DecidableEq for Except

/-- Stringpool::find with explicit running index; keys are positive
(key 0 is reserved for the absent version). -/
def pool_find_aux : List SymName → SymName → Nat → Option Nat
  | [], _, _ => none
  | x :: r, s, i => if x = s then some (i + 1) else pool_find_aux r s (i + 1)

/-- Stringpool::find: non-inserting lookup of a canonical key. -/
def pool_find (p : List SymName) (s : SymName) : Option Nat := pool_find_aux p s 0

/-- Stringpool::add: intern a string, returning the pool and its key;
equal strings receive equal keys, new strings a fresh positive key. -/
def pool_add (p : List SymName) (s : SymName) : List SymName × Nat :=
  match pool_find p s with
  | some k => (p, k)
  | none => (p ++ [s], p.length + 1)

/-- Hash-table lookup (unordered_map::find) on the association list. -/
def table_find : List ((Nat × Nat) × Nat) → Nat × Nat → Option Nat
  | [], _ => none
  | e :: r, k => if e.1 = k then some e.2 else table_find r k

/-- Hash-table assignment: replace the value at an existing key or
append a new entry (unordered_map insert-then-assign). -/
def table_set : List ((Nat × Nat) × Nat) → Nat × Nat → Nat → List ((Nat × Nat) × Nat)
  | [], k, v => [(k, v)]
  | e :: r, k, v => if e.1 = k then (k, v) :: r else e :: table_set r k v

/-- Read the C string starting at a string-table offset: the bytes up to
the first NUL. -/
def read_c_string (tab : List Nat) (off : Nat) : List Nat :=
  (tab.drop off).takeWhile (fun c => c ≠ 0)

/-- Modelled from the spec: the Resolver's five-way classification of a
side (resolve.cc is not part of src; spec section 4.3). -/
inductive SymClass where
  | strongDef
  | weakDef
  | commonSym
  | undefSym
  | weakUndef
deriving DecidableEq

/-- Modelled from the spec: classify an incoming ELF symbol by its
binding and section index (spec section 4.3). -/
def classify_sym (binding shndx : Nat) : SymClass :=
  if shndx = SHN_UNDEF then
    (if binding = STB_WEAK then SymClass.weakUndef else SymClass.undefSym)
  else if shndx = SHN_COMMON then SymClass.commonSym
  else if binding = STB_WEAK then SymClass.weakDef
  else SymClass.strongDef

/-- Modelled from the spec: classify a stored record; linker-defined
records are real definitions (spec section 4.4), object records are
classified like incoming symbols. -/
def classify_record (s : Symbol) : SymClass :=
  match s.source_ with
  | SymbolSource.FROM_OBJECT _ shnum => classify_sym s.binding_ shnum
  | _ => if s.binding_ = STB_WEAK then SymClass.weakDef else SymClass.strongDef

/-- Whether a record's definition comes from a dynamic object. -/
def record_def_is_dynamic (s : Symbol) : Bool :=
  match s.source_ with
  | SymbolSource.FROM_OBJECT o _ => o.is_dynamic
  | _ => false

/-- Modelled from the spec: restrictiveness rank of an ELF visibility,
DEFAULT below PROTECTED below HIDDEN below INTERNAL (spec section 4.3). -/
def visibility_rank (v : Nat) : Nat :=
  if v = 0 then 0 else if v = 3 then 1 else if v = 2 then 2 else 3

/-- Modelled from the spec: visibility merges to the most restrictive of
the two sides (spec section 4.3). -/
def merge_visibility (a b : Nat) : Nat :=
  if visibility_rank b ≤ visibility_rank a then a else b

/-- Modelled from the spec: the Resolver's decision. -/
inductive ResolveAction where
  | keepExisting
  | overwrite
  | mergeCommon
  | promoteToUndef
  | multiDefError
deriving DecidableEq

/-- Modelled from the spec: the merge-rule table of spec section 4.3,
rows indexed by the existing record's class, columns by the incoming
symbol's class, with the dynamic-object exception for two strong
definitions (a dynamic definition never errors against a relocatable
one; the relocatable wins; two dynamic definitions keep the first). -/
def resolve_action (ex inc : SymClass) (existing_dyn incoming_dyn : Bool) : ResolveAction :=
  match ex, inc with
  | SymClass.strongDef, SymClass.strongDef =>
    if incoming_dyn then ResolveAction.keepExisting
    else if existing_dyn then ResolveAction.overwrite
    else ResolveAction.multiDefError
  | SymClass.strongDef, _ => ResolveAction.keepExisting
  | SymClass.weakDef, SymClass.strongDef => ResolveAction.overwrite
  | SymClass.weakDef, _ => ResolveAction.keepExisting
  | SymClass.commonSym, SymClass.strongDef => ResolveAction.overwrite
  | SymClass.commonSym, SymClass.commonSym => ResolveAction.mergeCommon
  | SymClass.commonSym, _ => ResolveAction.keepExisting
  | SymClass.undefSym, SymClass.strongDef => ResolveAction.overwrite
  | SymClass.undefSym, SymClass.weakDef => ResolveAction.overwrite
  | SymClass.undefSym, SymClass.commonSym => ResolveAction.overwrite
  | SymClass.undefSym, _ => ResolveAction.keepExisting
  | SymClass.weakUndef, SymClass.strongDef => ResolveAction.overwrite
  | SymClass.weakUndef, SymClass.weakDef => ResolveAction.overwrite
  | SymClass.weakUndef, SymClass.commonSym => ResolveAction.overwrite
  | SymClass.weakUndef, SymClass.undefSym => ResolveAction.promoteToUndef
  | SymClass.weakUndef, SymClass.weakUndef => ResolveAction.keepExisting

/-- Modelled from the spec: Symbol_table::resolve (resolve.cc is not
part of src).  Merge an incoming ELF symbol from an object into an
existing record in place; returns the updated record and whether a
multiple-definition error was reported.  The in_dyn flag becomes true
whenever the symbol is also seen in a dynamic object (spec sections 3
and 4.3, scenario 3); visibility merges to the most restrictive;
common merging takes the per-side max of size and of value (the stored
value of a common symbol is its alignment). -/
def resolve_symbol (ex : Symbol) (sym : ElfSymData) (obj : InputObject) : Symbol × Bool :=
  let exCls := classify_record ex
  let incCls := classify_sym sym.st_bind sym.st_shndx
  let in_dyn : Bool := ex.in_dyn_ || obj.is_dynamic
  let vis := merge_visibility ex.visibility_ sym.st_visibility
  match resolve_action exCls incCls (record_def_is_dynamic ex) obj.is_dynamic with
  | ResolveAction.keepExisting =>
    ({ ex with in_dyn_ := in_dyn, visibility_ := vis }, false)
  | ResolveAction.overwrite =>
    ({ ex with type_ := sym.st_type, binding_ := sym.st_bind, visibility_ := vis,
               nonvis_ := sym.st_nonvis,
               source_ := SymbolSource.FROM_OBJECT obj sym.st_shndx,
               value_ := sym.st_value, symsize_ := sym.st_size, in_dyn_ := in_dyn }, false)
  | ResolveAction.mergeCommon =>
    ({ ex with symsize_ := max ex.symsize_ sym.st_size,
               value_ := max ex.value_ sym.st_value,
               visibility_ := vis, in_dyn_ := in_dyn }, false)
  | ResolveAction.promoteToUndef =>
    ({ ex with binding_ := sym.st_bind, visibility_ := vis, in_dyn_ := in_dyn }, false)
  | ResolveAction.multiDefError =>
    ({ ex with in_dyn_ := in_dyn }, true)

/-- Resolve the incoming symbol into the record at an arena index. -/
def Symbol_table.resolve_into (st : Symbol_table) (idx : Nat) (sym : ElfSymData)
    (obj : InputObject) : Symbol_table :=
  let r := resolve_symbol (sym_at st.syms_ idx) sym obj
  { st with syms_ := st.syms_.set idx r.1,
            resolve_errors_ := st.resolve_errors_ + (if r.2 then 1 else 0) }

/-- Symbol::set_forwarder. -/
def set_forwarder (s : Symbol) : Symbol := { s with is_forwarder_ := true }

/-- Symbol_table::make_forwarder: record the redirection in forwarders_
and mark the record (the corpus asserts the two records differ and that
neither is already a forwarder). -/
def Symbol_table.make_forwarder (st : Symbol_table) (fromIdx toIdx : Nat) : Symbol_table :=
  { st with forwarders_ := st.forwarders_ ++ [(fromIdx, toIdx)],
            syms_ := st.syms_.set fromIdx (set_forwarder (sym_at st.syms_ fromIdx)) }

/-- Symbol_table::resolve_forwards: follow the forwarders_ map. -/
def Symbol_table.resolve_forwards (st : Symbol_table) (fromIdx : Nat) : Option Nat :=
  (st.forwarders_.lookup fromIdx)

/-- Reconstruction of an ELF symbol from a stored record, mirroring the
slow path of Symbol_table::resolve(to, from): the corpus does not bother
to set st_name. -/
def reconstruct_elf (s : Symbol) : ElfSymData :=
  { st_name := 0, st_value := s.value_, st_size := s.symsize_, st_bind := s.binding_,
    st_type := s.type_, st_visibility := s.visibility_, st_nonvis := s.nonvis_,
    st_shndx := s.shnum }

/-- Sized_symbol::init for a symbol from an object: init_fields plus
from_object source, in_dyn from the object, value and size from the
ELF symbol. -/
def init_symbol_from_object (name : SymName) (version : Option SymName)
    (obj : InputObject) (sym : ElfSymData) : Symbol :=
  { name_ := name, version_ := version, got_offset_ := 0,
    type_ := sym.st_type, binding_ := sym.st_bind,
    visibility_ := sym.st_visibility, nonvis_ := sym.st_nonvis,
    is_target_special_ := false, is_def_ := false, is_forwarder_ := false,
    in_dyn_ := obj.is_dynamic, has_got_offset_ := false, has_warning_ := false,
    source_ := SymbolSource.FROM_OBJECT obj sym.st_shndx,
    value_ := sym.st_value, symsize_ := sym.st_size }

/-- The tail of add_from_object: bump saw_undefined_ when the record
newly became undefined, append to commons_ when it newly became COMMON. -/
def Symbol_table.finish_add (st : Symbol_table) (ret_idx : Nat)
    (was_undefined was_common : Bool) : Symbol_table :=
  let s := sym_at st.syms_ ret_idx
  let st1 := if was_undefined = false ∧ s.is_undefined = true then
               { st with saw_undefined_ := st.saw_undefined_ + 1 }
             else st
  if was_common = false ∧ s.is_common = true then
    { st1 with commons_ := st1.commons_ ++ [ret_idx] }
  else st1

/-- The def-handling block of add_from_object when NAME/VERSION already
existed: point NAME/NULL at the record if NAME/NULL is new; if NAME/NULL
holds a different record, resolve that record into this one, turn it
into a forwarder, and repoint the NAME/NULL slot. -/
def Symbol_table.handle_def_existing (st : Symbol_table) (name_key ret_idx : Nat) :
    Symbol_table :=
  match table_find st.table_ (name_key, 0) with
  | none => { st with table_ := table_set st.table_ (name_key, 0) ret_idx }
  | some old_idx =>
    if old_idx = ret_idx then st
    else
      let old := sym_at st.syms_ old_idx
      let st1 := st.resolve_into ret_idx (reconstruct_elf old) old.object
      let st2 := st1.make_forwarder old_idx ret_idx
      { st2 with table_ := table_set st2.table_ (name_key, 0) ret_idx }

/-- Symbol_table::add_from_object: add one symbol from an object under a
canonicalized (name, version); defv is the default-version flag.
Returns the updated table and the canonical record (none when a target
factory rejected the symbol). -/
def Symbol_table.add_from_object (st : Symbol_table) (obj : InputObject)
    (name : SymName) (name_key : Nat) (version : Option SymName) (version_key : Nat)
    (defv : Bool) (sym : ElfSymData) : Symbol_table × Option Nat :=
  match table_find st.table_ (name_key, version_key) with
  | some ret_idx =>
    let was_undefined := (sym_at st.syms_ ret_idx).is_undefined
    let was_common := (sym_at st.syms_ ret_idx).is_common
    let st1 := st.resolve_into ret_idx sym obj
    let st2 := if defv then st1.handle_def_existing name_key ret_idx else st1
    (st2.finish_add ret_idx was_undefined was_common, some ret_idx)
  | none =>
    match (if defv then table_find st.table_ (name_key, 0) else none) with
    | some old_idx =>
      let st1 := st.resolve_into old_idx sym obj
      let st2 := { st1 with table_ := table_set st1.table_ (name_key, version_key) old_idx }
      (st2.finish_add old_idx false false, some old_idx)
    | none =>
      if obj.target.has_make_symbol = true ∧ obj.target.make_symbol_some = false then
        (st, none)
      else
        let idx := st.syms_.length
        let newsym := init_symbol_from_object name version obj sym
        let st1 := { st with syms_ := st.syms_ ++ [newsym],
                             table_ := table_set st.table_ (name_key, version_key) idx }
        let st2 := if defv then
                     { st1 with table_ := table_set st1.table_ (name_key, 0) idx }
                   else st1
        (st2.finish_add idx false false, some idx)

/-- Symbol_table::lookup: non-inserting lookup by name and optional
version, through Stringpool::find and the hash table. -/
def Symbol_table.lookup (st : Symbol_table) (name : SymName) (version : Option SymName) :
    Option Nat :=
  match pool_find st.namepool_ name with
  | none => none
  | some name_key =>
    match version with
    | none => table_find st.table_ (name_key, 0)
    | some v =>
      match pool_find st.namepool_ v with
      | none => none
      | some version_key => table_find st.table_ (name_key, version_key)

/-- The body of the add_from_relobj loop for one raw symbol entry:
validate st_name, demote symbols of not-included sections to SHN_UNDEF,
split the version from the name at the at-sign (byte 64; a double
at-sign marks the default version), intern, and call add_from_object. -/
def Symbol_table.relobj_process_sym (st : Symbol_table) (relobj : InputObject)
    (sym : ElfSymData) (sym_names : List Nat) (sym_name_size : Nat) (i : Nat) :
    Except LinkError (Symbol_table × Option Nat) :=
  if sym_name_size ≤ sym.st_name then
    Except.error (LinkError.bad_symbol_name_offset relobj.obj_name sym.st_name i)
  else
    let name0 := read_c_string sym_names sym.st_name
    let psym :=
      if sym.st_shndx ≠ SHN_UNDEF ∧ sym.st_shndx < SHN_LORESERVE ∧
         relobj.included_sections.contains sym.st_shndx = false then
        { sym with st_shndx := SHN_UNDEF }
      else sym
    let pre := name0.takeWhile (fun c => c ≠ 64)
    let rest := name0.dropWhile (fun c => c ≠ 64)
    match rest with
    | [] =>
      let pa := pool_add st.namepool_ name0
      Except.ok (Symbol_table.add_from_object { st with namepool_ := pa.1 } relobj
        name0 pa.2 none 0 false psym)
    | _ :: rest1 =>
      let pa := pool_add st.namepool_ pre
      let st1 := { st with namepool_ := pa.1 }
      let dv : Bool × List Nat :=
        match rest1 with
        | 64 :: rest2 => (true, rest2)
        | _ => (false, rest1)
      let pv := pool_add st1.namepool_ dv.2
      Except.ok (Symbol_table.add_from_object { st1 with namepool_ := pv.1 } relobj
        pre pa.2 (some dv.2) pv.2 dv.1 psym)

/-- The loop of add_from_relobj, accumulating the sympointers slice. -/
def Symbol_table.add_from_relobj_loop (st : Symbol_table) (relobj : InputObject)
    (syms : List ElfSymData) (sym_names : List Nat) (sym_name_size : Nat) (i : Nat)
    (acc : List (Option Nat)) : Except LinkError (Symbol_table × List (Option Nat)) :=
  match syms with
  | [] => Except.ok (st, acc.reverse)
  | s :: rest =>
    match st.relobj_process_sym relobj s sym_names sym_name_size i with
    | Except.error e => Except.error e
    | Except.ok r =>
      Symbol_table.add_from_relobj_loop r.1 relobj rest sym_names sym_name_size (i + 1)
        (r.2 :: acc)

/-- Symbol_table::add_from_relobj: take the word size from the first
object seen; a later object whose template size disagrees with the
recorded size or with its own target's size is a fatal mixed-ELF error;
then process every raw symbol, returning the per-symbol record pointers.
The template parameter big_endian is received but, as in the corpus,
never compared against anything. -/
def Symbol_table.add_from_relobj (st : Symbol_table) (size : Nat) (big_endian : Bool)
    (relobj : InputObject) (syms : List ElfSymData) (sym_names : List Nat)
    (sym_name_size : Nat) : Except LinkError (Symbol_table × List (Option Nat)) :=
  let st0 := if st.size_ = 0 then { st with size_ := size } else st
  if size ≠ st0.size_ ∨ size ≠ relobj.target.get_size then
    Except.error (LinkError.mixed_elf relobj.obj_name)
  else
    st0.add_from_relobj_loop relobj syms sym_names sym_name_size 0 []

/-- The body of the add_from_dynobj loop for one raw symbol entry:
skip STB_LOCAL symbols, validate st_name, read the versym entry (the
16-bit value already decoded; the high bit is the hidden flag, the low
fifteen bits the version index), skip VER_NDX_LOCAL, treat
VER_NDX_GLOBAL as unversioned, reject out-of-range or null version-map
entries, treat SHN_ABS version-definition markers as unversioned, and
call add_from_object with the default flag for visible defined symbols. -/
def Symbol_table.dynobj_process_sym (st : Symbol_table) (dynobj : InputObject)
    (sym : ElfSymData) (versym_entry : Option Nat) (sym_names : List Nat)
    (sym_name_size : Nat) (version_map : List (Option SymName)) (i : Nat) :
    Except LinkError Symbol_table :=
  if sym.st_bind = STB_LOCAL then Except.ok st
  else if sym_name_size ≤ sym.st_name then
    Except.error (LinkError.bad_symbol_name_offset dynobj.obj_name sym.st_name i)
  else
    let name := read_c_string sym_names sym.st_name
    match versym_entry with
    | none =>
      let pa := pool_add st.namepool_ name
      Except.ok (Symbol_table.add_from_object { st with namepool_ := pa.1 } dynobj
        name pa.2 none 0 false sym).1
    | some v0 =>
      let hidden : Bool := VERSYM_HIDDEN ≤ v0
      let v := v0 % (VERSYM_VERSION + 1)
      if v = VER_NDX_LOCAL then Except.ok st
      else
        let pa := pool_add st.namepool_ name
        let st1 := { st with namepool_ := pa.1 }
        if v = VER_NDX_GLOBAL then
          Except.ok (Symbol_table.add_from_object st1 dynobj name pa.2 none 0 false sym).1
        else if version_map.length ≤ v then
          Except.error (LinkError.versym_out_of_range dynobj.obj_name i v)
        else
          match version_map.getD v none with
          | none => Except.error (LinkError.versym_no_name dynobj.obj_name i v)
          | some version =>
            let pv := pool_add st1.namepool_ version
            let st2 := { st1 with namepool_ := pv.1 }
            if sym.st_shndx = SHN_ABS ∧ pa.2 = pv.2 then
              Except.ok (Symbol_table.add_from_object st2 dynobj name pa.2 none 0 false sym).1
            else
              let defv : Bool := hidden = false ∧ sym.st_shndx ≠ SHN_UNDEF
              Except.ok (Symbol_table.add_from_object st2 dynobj name pa.2
                (some version) pv.2 defv sym).1

/-- The loop of add_from_dynobj; the versym cursor advances with the
symbol index whether or not the symbol is skipped. -/
def Symbol_table.add_from_dynobj_loop (st : Symbol_table) (dynobj : InputObject)
    (syms : List ElfSymData) (versym : Option (List Nat)) (sym_names : List Nat)
    (sym_name_size : Nat) (version_map : List (Option SymName)) (i : Nat) :
    Except LinkError Symbol_table :=
  match syms with
  | [] => Except.ok st
  | s :: rest =>
    match st.dynobj_process_sym dynobj s (versym.map (fun l => l.getD i 0)) sym_names
        sym_name_size version_map i with
    | Except.error e => Except.error e
    | Except.ok st1 =>
      Symbol_table.add_from_dynobj_loop st1 dynobj rest versym sym_names sym_name_size
        version_map (i + 1)

/-- Symbol_table::add_from_dynobj: the same first-object size recording
and mixed-ELF check as add_from_relobj (endianness again unchecked),
plus the too-few-symbol-versions check, then the per-symbol loop. -/
def Symbol_table.add_from_dynobj (st : Symbol_table) (size : Nat) (big_endian : Bool)
    (dynobj : InputObject) (syms : List ElfSymData) (sym_names : List Nat)
    (sym_name_size : Nat) (versym : Option (List Nat)) (versym_size : Nat)
    (version_map : List (Option SymName)) : Except LinkError Symbol_table :=
  let st0 := if st.size_ = 0 then { st with size_ := size } else st
  if size ≠ st0.size_ ∨ size ≠ dynobj.target.get_size then
    Except.error (LinkError.mixed_elf dynobj.obj_name)
  else if versym.isSome = true ∧ versym_size / 2 < syms.length then
    Except.error (LinkError.too_few_versions dynobj.obj_name)
  else
    st0.add_from_dynobj_loop dynobj syms versym sym_names sym_name_size version_map 0

/-- The oldsym block of define_special_symbol: when the pre-existing
record is a real definition (a non-UNDEF, non-COMMON section of a
non-dynamic object), print a multiple-definition diagnostic — without
terminating the link and reporting only the new location — and return
null; otherwise the new definition takes over the record. -/
def Symbol_table.define_check_oldsym (st : Symbol_table) (old_idx : Nat) :
    Symbol_table × Option Nat :=
  let s := sym_at st.syms_ old_idx
  let old_shnum := s.shnum
  if old_shnum ≠ SHN_UNDEF ∧ old_shnum ≠ SHN_COMMON ∧ s.object.is_dynamic = false then
    ({ st with multi_def_errors_ := st.multi_def_errors_ + 1 }, none)
  else
    (st, some old_idx)

/-- Symbol_table::define_special_symbol: with only_if_ref, take over an
existing undefined record or do nothing; otherwise insert-or-get the
unversioned slot, allocating a fresh record (generic or via the target
factory) when the name is new.  Returns the record to initialize, or
none.  As in the corpus, a factory rejection here does not erase the
just-inserted slot (observationally, the slot holds a null pointer;
see the file comment). -/
def Symbol_table.define_special_symbol (st : Symbol_table) (target : Target)
    (name : SymName) (only_if_ref : Bool) : Symbol_table × Option Nat :=
  if only_if_ref then
    match st.lookup name none with
    | none => (st, none)
    | some old_idx =>
      if (sym_at st.syms_ old_idx).is_undefined = false then (st, none)
      else st.define_check_oldsym old_idx
  else
    let pa := pool_add st.namepool_ name
    let st1 := { st with namepool_ := pa.1 }
    match table_find st1.table_ (pa.2, 0) with
    | some old_idx => st1.define_check_oldsym old_idx
    | none =>
      if target.has_make_symbol = true ∧ target.make_symbol_some = false then (st1, none)
      else
        let idx := st1.syms_.length
        ({ st1 with syms_ := st1.syms_ ++ [blank_symbol],
                    table_ := table_set st1.table_ (pa.2, 0) idx }, some idx)

/-- Sized_symbol::init for a symbol defined in an Output_data. -/
def init_symbol_in_output_data (name : SymName) (od : OutputData)
    (value symsize stype binding vis nonvis : Nat) (offset_is_from_end : Bool) : Symbol :=
  { name_ := name, version_ := none, got_offset_ := 0,
    type_ := stype, binding_ := binding, visibility_ := vis, nonvis_ := nonvis,
    is_target_special_ := false, is_def_ := false, is_forwarder_ := false,
    in_dyn_ := false, has_got_offset_ := false, has_warning_ := false,
    source_ := SymbolSource.IN_OUTPUT_DATA od offset_is_from_end,
    value_ := value, symsize_ := symsize }

/-- Sized_symbol::init for a symbol defined in an Output_segment. -/
def init_symbol_in_output_segment (name : SymName) (os : OutputSegment)
    (value symsize stype binding vis nonvis : Nat) (offset_base : SegmentOffsetBase) :
    Symbol :=
  { name_ := name, version_ := none, got_offset_ := 0,
    type_ := stype, binding_ := binding, visibility_ := vis, nonvis_ := nonvis,
    is_target_special_ := false, is_def_ := false, is_forwarder_ := false,
    in_dyn_ := false, has_got_offset_ := false, has_warning_ := false,
    source_ := SymbolSource.IN_OUTPUT_SEGMENT os offset_base,
    value_ := value, symsize_ := symsize }

/-- Sized_symbol::init for a symbol defined as a constant. -/
def init_symbol_as_constant (name : SymName)
    (value symsize stype binding vis nonvis : Nat) : Symbol :=
  { name_ := name, version_ := none, got_offset_ := 0,
    type_ := stype, binding_ := binding, visibility_ := vis, nonvis_ := nonvis,
    is_target_special_ := false, is_def_ := false, is_forwarder_ := false,
    in_dyn_ := false, has_got_offset_ := false, has_warning_ := false,
    source_ := SymbolSource.CONSTANT, value_ := value, symsize_ := symsize }

/-- Symbol_table::do_define_in_output_data (the sized worker of
define_in_output_data): obtain the record from define_special_symbol
and initialize it; when no record is returned, do nothing. -/
def Symbol_table.do_define_in_output_data (st : Symbol_table) (target : Target)
    (name : SymName) (od : OutputData) (value symsize stype binding vis nonvis : Nat)
    (offset_is_from_end only_if_ref : Bool) : Symbol_table :=
  match st.define_special_symbol target name only_if_ref with
  | (st1, none) => st1
  | (st1, some idx) =>
    { st1 with syms_ := st1.syms_.set idx (init_symbol_in_output_data name od value
        symsize stype binding vis nonvis offset_is_from_end) }

/-- Symbol_table::do_define_in_output_segment, sized worker of
define_in_output_segment. -/
def Symbol_table.do_define_in_output_segment (st : Symbol_table) (target : Target)
    (name : SymName) (os : OutputSegment) (value symsize stype binding vis nonvis : Nat)
    (offset_base : SegmentOffsetBase) (only_if_ref : Bool) : Symbol_table :=
  match st.define_special_symbol target name only_if_ref with
  | (st1, none) => st1
  | (st1, some idx) =>
    { st1 with syms_ := st1.syms_.set idx (init_symbol_in_output_segment name os value
        symsize stype binding vis nonvis offset_base) }

/-- Symbol_table::do_define_as_constant, sized worker of
define_as_constant. -/
def Symbol_table.do_define_as_constant (st : Symbol_table) (target : Target)
    (name : SymName) (value symsize stype binding vis nonvis : Nat)
    (only_if_ref : Bool) : Symbol_table :=
  match st.define_special_symbol target name only_if_ref with
  | (st1, none) => st1
  | (st1, some idx) =>
    { st1 with syms_ := st1.syms_.set idx (init_symbol_as_constant name value symsize
        stype binding vis nonvis) }

/-- Size in bytes of one serialized ELF symbol entry (elfcpp Elf_sizes). -/
def elf_sym_size (size : Nat) : Nat := if size = 32 then 16 else 24

/-- gold's align_address: round an offset up to the given power-of-two
alignment. -/
def align_address (off addralign : Nat) : Nat :=
  if addralign = 0 then off else ((off + addralign - 1) / addralign) * addralign

/-- The per-record body of sized_finalize: the reserved-section check
(fatal for any section index at or above SHN_LORESERVE other than
SHN_ABS — note this includes SHN_COMMON), then the final value by
source; returns none when the record's section was discarded (the
record is skipped, not emitted). -/
def finalize_sym_value (s : Symbol) : Except LinkError (Option Nat) :=
  match s.source_ with
  | SymbolSource.FROM_OBJECT obj shnum =>
    if SHN_LORESERVE ≤ shnum ∧ shnum ≠ SHN_ABS then
      Except.error (LinkError.unsupported_symbol_section s.name_ shnum)
    else if obj.is_dynamic = true then Except.ok (some 0)
    else if shnum = SHN_UNDEF then Except.ok (some 0)
    else if shnum = SHN_ABS then Except.ok (some s.value_)
    else
      match obj.output_sections.lookup shnum with
      | none => Except.ok none
      | some osec => Except.ok (some (s.value_ + osec.1.address + osec.2))
  | SymbolSource.IN_OUTPUT_DATA od from_end =>
    Except.ok (some (s.value_ + od.address + (if from_end then od.data_size else 0)))
  | SymbolSource.IN_OUTPUT_SEGMENT os base =>
    Except.ok (some (s.value_ + os.vaddr +
      (match base with
       | SegmentOffsetBase.SEGMENT_START => 0
       | SegmentOffsetBase.SEGMENT_END => os.memsz
       | SegmentOffsetBase.SEGMENT_BSS => os.filesz)))
  | SymbolSource.CONSTANT => Except.ok (some s.value_)

/-- The walk of sized_finalize over the hash-table entries: set each
record's final value, add its name to the output pool, and advance the
counter and file offset; discarded-section records are skipped. -/
def sized_finalize_loop (syms : List Symbol) (entries : List ((Nat × Nat) × Nat))
    (pool : List SymName) (off count sym_size : Nat) :
    Except LinkError (List Symbol × List SymName × Nat × Nat) :=
  match entries with
  | [] => Except.ok (syms, pool, off, count)
  | e :: rest =>
    let s := sym_at syms e.2
    match finalize_sym_value s with
    | Except.error err => Except.error err
    | Except.ok none => sized_finalize_loop syms rest pool off count sym_size
    | Except.ok (some v) =>
      sized_finalize_loop (syms.set e.2 { s with value_ := v }) rest
        (pool_add pool s.name_).1 (off + sym_size) (count + 1) sym_size

/-- Symbol_table::sized_finalize: align the file offset to the word
size, record it, walk the table computing final values and output-pool
names, and record the emitted count.  Returns the new table state, the
output string pool, and the end offset. -/
def Symbol_table.sized_finalize (st : Symbol_table) (off : Nat) (pool : List SymName)
    (size : Nat) : Except LinkError (Symbol_table × List SymName × Nat) :=
  let off0 := align_address off (size / 8)
  match sized_finalize_loop st.syms_ st.table_ pool off0 0 (elf_sym_size size) with
  | Except.error e => Except.error e
  | Except.ok r =>
    Except.ok ({ st with syms_ := r.1, offset_ := off0, output_count_ := r.2.2.2 },
      r.2.1, r.2.2.1)

/-- One operation of a link trace: an add_from_object call (as issued by
the ingestion paths, with the name and optional version interned first)
or one of the three linker-definition entry points (their sized
workers). -/
inductive SymtabOp where
  | addObj (obj : InputObject) (name : SymName) (version : Option SymName)
    (defv : Bool) (sym : ElfSymData)
  | defData (target : Target) (name : SymName) (od : OutputData)
    (value symsize stype binding vis nonvis : Nat) (offset_is_from_end only_if_ref : Bool)
  | defSegment (target : Target) (name : SymName) (os : OutputSegment)
    (value symsize stype binding vis nonvis : Nat) (offset_base : SegmentOffsetBase)
    (only_if_ref : Bool)
  | defConstant (target : Target) (name : SymName)
    (value symsize stype binding vis nonvis : Nat) (only_if_ref : Bool)

/-- Apply one trace operation: addObj interns the name and version the
way the ingestion callers do, then runs add_from_object; the define
operations run the corresponding sized workers. -/
def step_op (st : Symbol_table) (op : SymtabOp) : Symbol_table :=
  match op with
  | SymtabOp.addObj obj name version defv sym =>
    let pa := pool_add st.namepool_ name
    let st1 := { st with namepool_ := pa.1 }
    match version with
    | none => (st1.add_from_object obj name pa.2 none 0 defv sym).1
    | some v =>
      let pv := pool_add st1.namepool_ v
      let st2 := { st1 with namepool_ := pv.1 }
      (st2.add_from_object obj name pa.2 (some v) pv.2 defv sym).1
  | SymtabOp.defData target name od value symsize stype binding vis nonvis fe oir =>
    st.do_define_in_output_data target name od value symsize stype binding vis nonvis fe oir
  | SymtabOp.defSegment target name os value symsize stype binding vis nonvis ob oir =>
    st.do_define_in_output_segment target name os value symsize stype binding vis nonvis ob oir
  | SymtabOp.defConstant target name value symsize stype binding vis nonvis oir =>
    st.do_define_as_constant target name value symsize stype binding vis nonvis oir

/-- Run a trace of operations from the empty symbol table. -/
def run_ops (ops : List SymtabOp) : Symbol_table :=
  ops.foldl step_op empty_table

/-! Concrete inputs used by the counterexamples and witnesses. -/

/-- A target with no make_symbol factory, 32-bit little-endian. -/
def plain_target : Target :=
  { get_size := 32, is_big_endian := false, has_make_symbol := false,
    make_symbol_some := false }

/-- A static (relocatable) input object whose section 1 is included. -/
def static_obj : InputObject :=
  { obj_name := [111], is_dynamic := false, target := plain_target,
    included_sections := [1], output_sections := [] }

/-- A target whose make_symbol factory rejects every symbol. -/
def rejecting_target : Target :=
  { get_size := 32, is_big_endian := false, has_make_symbol := true,
    make_symbol_some := false }

/-- A static object whose target factory rejects every symbol. -/
def rejecting_obj : InputObject :=
  { obj_name := [114], is_dynamic := false, target := rejecting_target,
    included_sections := [1], output_sections := [] }

/-- An undefined global symbol entry (a plain reference). -/
def undef_global_sym : ElfSymData :=
  { st_name := 0, st_value := 0, st_size := 0, st_bind := STB_GLOBAL, st_type := 0,
    st_visibility := 0, st_nonvis := 0, st_shndx := SHN_UNDEF }

/-- A global COMMON symbol entry (size 4, alignment 4). -/
def common_global_sym : ElfSymData :=
  { st_name := 0, st_value := 4, st_size := 4, st_bind := STB_GLOBAL, st_type := 1,
    st_visibility := 0, st_nonvis := 0, st_shndx := SHN_COMMON }

/-- A strong global definition in section 1. -/
def strong_def_sym : ElfSymData :=
  { st_name := 0, st_value := 0, st_size := 4, st_bind := STB_GLOBAL, st_type := 2,
    st_visibility := 0, st_nonvis := 0, st_shndx := 1 }

/-- Trace behind the C1/C2 failures: the name n (byte 110) receives
default version v2 (bytes 118 50), then a non-default and a default
add of version v1 (bytes 118 49).  The third call finds distinct
records in the NAME/VERSION and NAME/NULL slots, forwards the old
NAME/NULL record — which the second slot (n, v2) still holds — to the
new one, and repoints only NAME/NULL. -/
def cex_forwarder_ops : List SymtabOp :=
  [ SymtabOp.addObj static_obj [110] (some [118, 50]) true undef_global_sym,
    SymtabOp.addObj static_obj [110] (some [118, 49]) false undef_global_sym,
    SymtabOp.addObj static_obj [110] (some [118, 49]) true undef_global_sym ]

/-- C1.  The claim fails on the code: after the trace cex_forwarder_ops,
the pair (n, v2) was passed to add_from_object with default=true (its
very first operation), yet a subsequent lookup(n, NULL) returns record 1
while lookup(n, v2) returns record 0 — not pointer-equal.  This
contradicts the comment block above add_from_object (symtab.cc:267-273),
which promises that any lookup of NAME/NULL and of NAME/VERSION then
always return the same symbol, so the code, not the claim, is at
fault. -/
theorem c1_default_alias_violated :
    (cex_forwarder_ops.getD 0 (SymtabOp.defConstant plain_target [] 0 0 0 0 0 0 false)
       = SymtabOp.addObj static_obj [110] (some [118, 50]) true undef_global_sym)
    ∧ (run_ops cex_forwarder_ops).lookup [110] none = some 1
    ∧ (run_ops cex_forwarder_ops).lookup [110] (some [118, 50]) = some 0 := by
  refine ⟨rfl, ?_, ?_⟩ <;> decide

/-- C2.  The claim fails on the code: after the trace cex_forwarder_ops,
record 0 has the forwarder flag set (make_forwarder turned it into a
forwarder) yet it is still the value of the hash-table slot (n, v2) —
only the (n, NULL) slot was repointed.  This contradicts the comment at
symtab.cc:283-284 ("entries in the hash table will never be marked as
forwarders"), so the code, not the claim, is at fault. -/
theorem c2_forwarder_reachable :
    (sym_at (run_ops cex_forwarder_ops).syms_ 0).is_forwarder_ = true
    ∧ table_find (run_ops cex_forwarder_ops).table_ (1, 2) = some 0
    ∧ (run_ops cex_forwarder_ops).resolve_forwards 0 = some 1 := by
  refine ⟨?_, ?_, ?_⟩ <;> decide

/-- The string table for the one-symbol relocatable counterexample:
the name is the single byte 97 at offset 0, NUL-terminated. -/
def cex_strtab : List Nat := [97, 0]

/-- A raw symbol with LOCAL binding, defined in section 1. -/
def local_def_sym : ElfSymData :=
  { st_name := 0, st_value := 0, st_size := 0, st_bind := STB_LOCAL, st_type := 2,
    st_visibility := 0, st_nonvis := 0, st_shndx := 1 }

/-- C3 counterexample.  The claim fails on the code: add_from_relobj
contains no STB_LOCAL filter, so ingesting a single LOCAL symbol
creates a hash-table entry whose record has LOCAL binding (the skip
exists only in add_from_dynobj). -/
theorem c3_relobj_stores_local :
    ∃ st, empty_table.add_from_relobj 32 false static_obj [local_def_sym] cex_strtab 2
        = Except.ok (st, [some 0])
      ∧ table_find st.table_ (1, 0) = some 0
      ∧ (sym_at st.syms_ 0).binding_ = STB_LOCAL := by
  refine ⟨_, rfl, ?_, ?_⟩ <;> decide

/-- A 32-bit big-endian static object. -/
def big_endian_obj : InputObject :=
  { obj_name := [98], is_dynamic := false,
    target := { get_size := 32, is_big_endian := true, has_make_symbol := false,
                make_symbol_some := false },
    included_sections := [], output_sections := [] }

/-- C4 counterexample.  The claim fails on the code: the mixed-format
check compares only word sizes, never endianness.  A first little-endian
32-bit object followed by a big-endian 32-bit object is accepted without
error by both ingestion entry points. -/
theorem c4_endianness_not_checked :
    ∃ st, empty_table.add_from_relobj 32 false static_obj [] [] 0 = Except.ok (st, [])
      ∧ st.add_from_relobj 32 true big_endian_obj [] [] 0 = Except.ok (st, [])
      ∧ st.add_from_dynobj 32 true big_endian_obj [] [] 0 none 0 [] = Except.ok st := by
  refine ⟨_, rfl, ?_, ?_⟩ <;> decide

/-- Trace behind the C5 counterexample: a strong definition of f
(byte 102) from a relocatable object, then define_as_constant on the
same name with only_if_ref false, then a further ingestion of g
(byte 103). -/
def cex_multidef_ops : List SymtabOp :=
  [ SymtabOp.addObj static_obj [102] none false strong_def_sym,
    SymtabOp.defConstant plain_target [102] 7 0 1 1 0 0 false,
    SymtabOp.addObj static_obj [103] none false undef_global_sym ]

/-- C5 counterexample.  The claim fails on the code: when the
pre-existing record is a real definition, define_special_symbol prints
the multiple-definition diagnostic and returns null — there is no
gold_exit, the record is left untouched, and the link continues (the
third trace operation still executes, growing the arena to two
records). -/
theorem c5_multidef_not_fatal :
    (run_ops cex_multidef_ops).multi_def_errors_ = 1
    ∧ (run_ops cex_multidef_ops).syms_.length = 2
    ∧ (sym_at (run_ops cex_multidef_ops).syms_ 0).source_
        = SymbolSource.FROM_OBJECT static_obj 1
    ∧ (sym_at (run_ops cex_multidef_ops).syms_ 0).value_ = 0 := by
  refine ⟨?_, ?_, ?_, ?_⟩ <;> decide

/-- The state holding one COMMON record named c (byte 99). -/
def cex_common_state : Symbol_table :=
  run_ops [SymtabOp.addObj static_obj [99] none false common_global_sym]

/-- C6 counterexample.  The claim fails on the code: a record whose
section index is SHN_COMMON at finalize time is ≥ SHN_LORESERVE and
≠ SHN_ABS, so sized_finalize reports the unsupported-symbol-section
error and the link dies — SHN_COMMON is not exempted. -/
theorem c6_common_fatal_at_finalize :
    cex_common_state.sized_finalize 0 [] 32
      = Except.error (LinkError.unsupported_symbol_section [99] SHN_COMMON)
    ∧ finalize_sym_value (sym_at cex_common_state.syms_ 0)
      = Except.error (LinkError.unsupported_symbol_section [99] SHN_COMMON) := by
  refine ⟨?_, ?_⟩ <;> decide

/-- An output data blob at address 4 with five bytes of content. -/
def cex_odata : OutputData := { address := 4, data_size := 5, out_shndx := 2 }

/-- The state holding one IN_OUTPUT_DATA record named e (byte 101) at
offset 3 into cex_odata. -/
def cex_final_state : Symbol_table :=
  run_ops [SymtabOp.defData plain_target [101] cex_odata 3 0 1 1 0 0 false false]

/-- C7 counterexample.  The claim fails on the code: finalize computes
the final value from the stored value, so a second run over
already-finalized state adds the output-data address again.  Here the
record's value is 3 + 4 = 7 after the first sized_finalize and
7 + 4 = 11 after the second; output_count and the end offset do
agree. -/
theorem c7_finalize_not_idempotent :
    ∃ st1 pool1 st2 pool2,
      cex_final_state.sized_finalize 0 [] 32 = Except.ok (st1, pool1, 16)
      ∧ (sym_at st1.syms_ 0).value_ = 7
      ∧ st1.sized_finalize 0 pool1 32 = Except.ok (st2, pool2, 16)
      ∧ (sym_at st2.syms_ 0).value_ = 11
      ∧ st2.output_count_ = st1.output_count_ := by
  refine ⟨_, _, _, _, rfl, ?_, rfl, ?_, ?_⟩ <;> decide

/-- Trace behind the C8 counterexample: a COMMON definition of f
(byte 102), then a default-versioned undefined reference to the same
name (the aliasing branch resets was_common to false and appends the
still-COMMON record to commons_ a second time), then define_as_constant
takes the record over, leaving it non-COMMON but still listed twice. -/
def cex_commons_ops : List SymtabOp :=
  [ SymtabOp.addObj static_obj [102] none false common_global_sym,
    SymtabOp.addObj static_obj [102] (some [118, 49]) true undef_global_sym,
    SymtabOp.defConstant plain_target [102] 7 0 1 1 0 0 false ]

/-- C8 counterexample.  The claim fails on the code in both directions:
after the trace cex_commons_ops the commons list holds record 0 twice
(a duplicate), and record 0 is no longer classified COMMON at all (the
list is append-only and is never pruned when a record leaves the COMMON
class). -/
theorem c8_commons_not_exact :
    (run_ops cex_commons_ops).commons_ = [0, 0]
    ∧ (sym_at (run_ops cex_commons_ops).syms_ 0).is_common = false := by
  refine ⟨?_, ?_⟩ <;> decide

/-! Confirmed and amended claims. -/

/-- C9.  When the target factory is consulted for a first-seen
(name, version) and returns null, add_from_object removes exactly the
hash-table entries it had inserted (the versioned slot and, for a
default insertion, the unversioned slot), returns null, and reports no
error: the symbol table is left equal to its state before the call.
The factory is only consulted when the versioned key is new and, for a
default insertion, the unversioned key is new as well (otherwise the
aliasing branch runs and no symbol is constructed), whence the two
freshness hypotheses. -/
theorem c9_factory_reject_clean (st : Symbol_table) (obj : InputObject)
    (name : SymName) (nk : Nat) (version : Option SymName) (vk : Nat) (defv : Bool)
    (sym : ElfSymData)
    (hfac1 : obj.target.has_make_symbol = true)
    (hfac2 : obj.target.make_symbol_some = false)
    (hnew : table_find st.table_ (nk, vk) = none)
    (hnew0 : defv = true → table_find st.table_ (nk, 0) = none) :
    st.add_from_object obj name nk version vk defv sym = (st, none) := by
  cases defv
  · simp [Symbol_table.add_from_object, hnew, hfac1, hfac2]
  · simp [Symbol_table.add_from_object, hnew, hnew0 rfl, hfac1, hfac2]

/-- Witness for C9: a rejecting factory on a fresh default-version
insertion leaves the empty table untouched. -/
theorem c9_factory_reject_clean_witness :
    empty_table.add_from_object rejecting_obj [120] 1 (some [118]) 2 true
      undef_global_sym = (empty_table, none) :=
  c9_factory_reject_clean empty_table rejecting_obj [120] 1 (some [118]) 2 true
    undef_global_sym rfl rfl rfl (fun _ => rfl)

/-- The version key a lookup uses: 0 for no version, otherwise the
pool key of the version string. -/
def version_key_find (st : Symbol_table) (version : Option SymName) : Option Nat :=
  match version with
  | none => some 0
  | some v => pool_find st.namepool_ v

/-- C10.  Symbol_table::lookup is total and non-mutating (it is a plain
function of the state, calling only the non-inserting Stringpool::find
and hash find): it returns null whenever the name was never interned,
whenever the supplied version was never interned, and whenever the
interned key pair is absent from the hash table. -/
theorem c10_lookup_total (st : Symbol_table) (name : SymName)
    (version : Option SymName) :
    (pool_find st.namepool_ name = none → st.lookup name version = none)
    ∧ (∀ v, version = some v → pool_find st.namepool_ v = none →
        st.lookup name version = none)
    ∧ (∀ nk vk, pool_find st.namepool_ name = some nk →
        version_key_find st version = some vk →
        table_find st.table_ (nk, vk) = none →
        st.lookup name version = none) := by
  refine ⟨?_, ?_, ?_⟩
  · intro h
    simp [Symbol_table.lookup, h]
  · intro v hv h
    subst hv
    cases hn : pool_find st.namepool_ name <;> simp [Symbol_table.lookup, hn, h]
  · intro nk vk hn hv ht
    cases version with
    | none =>
      simp [version_key_find] at hv
      subst hv
      simp [Symbol_table.lookup, hn, ht]
    | some v =>
      simp [version_key_find] at hv
      simp [Symbol_table.lookup, hn, hv, ht]

/-- Witness for C10: looking up a never-interned name in the empty
table returns null. -/
theorem c10_lookup_total_witness : empty_table.lookup [122] none = none :=
  (c10_lookup_total empty_table [122] none).1 rfl

/-- C3 as amended.  The STB_LOCAL rejection lives in the dynamic-object
ingestion path, not the relocatable one: add_from_dynobj skips every
symbol with LOCAL binding before touching the name pool or the table,
so no entry is created or updated for it (add_from_relobj performs no
such filtering, as the counterexample shows). -/
theorem c3_amended_dynobj_skips_local (st : Symbol_table) (dynobj : InputObject)
    (sym : ElfSymData) (ve : Option Nat) (sym_names : List Nat) (sym_name_size : Nat)
    (version_map : List (Option SymName)) (i : Nat)
    (h : sym.st_bind = STB_LOCAL) :
    st.dynobj_process_sym dynobj sym ve sym_names sym_name_size version_map i
      = Except.ok st := by
  simp [Symbol_table.dynobj_process_sym, h]

/-- Witness for the amended C3: a LOCAL symbol is skipped by the
dynamic-object path with the state unchanged. -/
theorem c3_amended_dynobj_skips_local_witness :
    empty_table.dynobj_process_sym static_obj local_def_sym none [] 0 [] 0
      = Except.ok empty_table :=
  c3_amended_dynobj_skips_local empty_table static_obj local_def_sym none [] 0 [] 0 rfl

/-- C4 as amended.  Only word size is policed: once a first input has
fixed the table's size, any later input ingested with a different
template size is a fatal mixed-ELF error in both add_from_relobj and
add_from_dynobj (endianness disagreement, by contrast, passes
unchecked — see the counterexample). -/
theorem c4_amended_size_mismatch_fatal (st : Symbol_table) (size : Nat) (be : Bool)
    (obj : InputObject) (syms : List ElfSymData) (names : List Nat) (nsz : Nat)
    (dsyms : List ElfSymData) (dnames : List Nat) (dnsz : Nat)
    (versym : Option (List Nat)) (vsz : Nat) (vmap : List (Option SymName))
    (h0 : st.size_ ≠ 0) (hne : size ≠ st.size_) :
    st.add_from_relobj size be obj syms names nsz
      = Except.error (LinkError.mixed_elf obj.obj_name)
    ∧ st.add_from_dynobj size be obj dsyms dnames dnsz versym vsz vmap
      = Except.error (LinkError.mixed_elf obj.obj_name) := by
  constructor
  · simp [Symbol_table.add_from_relobj, h0, hne]
  · simp [Symbol_table.add_from_dynobj, h0, hne]

/-- The symbol table after a first 32-bit input has been observed. -/
def sized_state_32 : Symbol_table := { empty_table with size_ := 32 }

/-- Witness for the amended C4: a 64-bit object after a 32-bit first
input is fatal in both ingestion paths. -/
theorem c4_amended_size_mismatch_fatal_witness :
    sized_state_32.add_from_relobj 64 false static_obj [] [] 0
      = Except.error (LinkError.mixed_elf static_obj.obj_name)
    ∧ sized_state_32.add_from_dynobj 64 false static_obj [] [] 0 none 0 []
      = Except.error (LinkError.mixed_elf static_obj.obj_name) :=
  c4_amended_size_mismatch_fatal sized_state_32 64 false static_obj [] [] 0 [] [] 0
    none 0 [] (by decide) (by decide)

/-- C5 as amended.  For define_in_output_data, define_in_output_segment
and define_as_constant with only_if_ref false, when the name's
pre-existing record is a real definition (FROM_OBJECT, section neither
SHN_UNDEF nor SHN_COMMON, owning object not dynamic), a
multiple-definition diagnostic is recorded and the definition is
abandoned — but the link is not terminated: the call returns normally
with the table, arena, and every record unchanged (only the name-pool
interning and the diagnostic counter move), and only the new location
is reported. -/
theorem c5_amended_multidef_reported_not_fatal (st : Symbol_table) (target : Target)
    (name : SymName) (od : OutputData) (os : OutputSegment)
    (value symsize stype binding vis nonvis : Nat) (fe : Bool)
    (base : SegmentOffsetBase) (idx : Nat) (obj : InputObject) (shnum : Nat)
    (hfound : table_find st.table_ ((pool_add st.namepool_ name).2, 0) = some idx)
    (hsrc : (sym_at st.syms_ idx).source_ = SymbolSource.FROM_OBJECT obj shnum)
    (h1 : shnum ≠ SHN_UNDEF) (h2 : shnum ≠ SHN_COMMON) (h3 : obj.is_dynamic = false) :
    st.do_define_in_output_data target name od value symsize stype binding vis nonvis
        fe false
      = { st with namepool_ := (pool_add st.namepool_ name).1,
                  multi_def_errors_ := st.multi_def_errors_ + 1 }
    ∧ st.do_define_in_output_segment target name os value symsize stype binding vis
        nonvis base false
      = { st with namepool_ := (pool_add st.namepool_ name).1,
                  multi_def_errors_ := st.multi_def_errors_ + 1 }
    ∧ st.do_define_as_constant target name value symsize stype binding vis nonvis false
      = { st with namepool_ := (pool_add st.namepool_ name).1,
                  multi_def_errors_ := st.multi_def_errors_ + 1 } := by
  have hspec : st.define_special_symbol target name false
      = ({ st with namepool_ := (pool_add st.namepool_ name).1,
                   multi_def_errors_ := st.multi_def_errors_ + 1 }, none) := by
    simp only [Symbol_table.define_special_symbol, Bool.false_eq_true, if_false]
    simp only [hfound]
    simp [Symbol_table.define_check_oldsym, Symbol.shnum, Symbol.object, hsrc, h1, h2, h3]
  refine ⟨?_, ?_, ?_⟩ <;>
    simp [Symbol_table.do_define_in_output_data, Symbol_table.do_define_in_output_segment,
      Symbol_table.do_define_as_constant, hspec]

/-- The state after ingesting the strong definition of f from a
relocatable object (the first operation of cex_multidef_ops). -/
def c5_state : Symbol_table :=
  run_ops [SymtabOp.addObj static_obj [102] none false strong_def_sym]

/-- An arbitrary output segment used by witnesses. -/
def cex_oseg : OutputSegment := { vaddr := 64, memsz := 32, filesz := 16 }

/-- Witness for the amended C5: redefining the object-defined f as a
constant records one diagnostic and returns normally. -/
theorem c5_amended_multidef_witness :
    (c5_state.do_define_as_constant plain_target [102] 7 0 1 1 0 0 false).multi_def_errors_
      = 1 := by
  have h := c5_amended_multidef_reported_not_fatal c5_state plain_target [102] cex_odata
    cex_oseg 7 0 1 1 0 0 false SegmentOffsetBase.SEGMENT_START 0 static_obj 1
    (by decide) (by decide) (by decide) (by decide) (by decide)
  rw [h.2.2]
  decide

/-- Helper for the amended C6: below SHN_LORESERVE (or at SHN_ABS) a
FROM_OBJECT record never makes finalize_sym_value fail. -/
theorem finalize_from_object_no_error (s : Symbol) (obj : InputObject) (shnum : Nat)
    (hs : s.source_ = SymbolSource.FROM_OBJECT obj shnum)
    (hc : ¬(SHN_LORESERVE ≤ shnum ∧ shnum ≠ SHN_ABS)) (e : LinkError) :
    finalize_sym_value s ≠ Except.error e := by
  simp only [finalize_sym_value, hs]
  rw [if_neg hc]
  split
  · simp
  · split
    · simp
    · split
      · simp
      · split <;> simp

/-- C6 as amended.  During finalize a record is fatal exactly when its
source is FROM_OBJECT and its section index is at or above
SHN_LORESERVE and different from SHN_ABS.  SHN_COMMON (0xfff2) meets
that condition, so — contrary to the claim — a COMMON record at
finalize time is fatal; SHN_UNDEF (0) never is, and non-object sources
never are. -/
theorem c6_amended_unsupported_iff (s : Symbol) :
    (∃ e, finalize_sym_value s = Except.error e)
    ↔ (∃ obj shnum, s.source_ = SymbolSource.FROM_OBJECT obj shnum
        ∧ SHN_LORESERVE ≤ shnum ∧ shnum ≠ SHN_ABS) := by
  constructor
  · rintro ⟨e, he⟩
    cases hs : s.source_ with
    | FROM_OBJECT obj shnum =>
      by_cases hc : SHN_LORESERVE ≤ shnum ∧ shnum ≠ SHN_ABS
      · exact ⟨obj, shnum, rfl, hc⟩
      · exact absurd he (finalize_from_object_no_error s obj shnum hs hc e)
    | IN_OUTPUT_DATA od fe => simp [finalize_sym_value, hs] at he
    | IN_OUTPUT_SEGMENT os base => simp [finalize_sym_value, hs] at he
    | CONSTANT => simp [finalize_sym_value, hs] at he
  · rintro ⟨obj, shnum, hs, hc⟩
    refine ⟨LinkError.unsupported_symbol_section s.name_ shnum, ?_⟩
    simp only [finalize_sym_value, hs]
    rw [if_pos hc]

/-! Arena access lemmas. -/

theorem sym_at_set_ne (l : List Symbol) (i : Nat) (s : Symbol) (j : Nat) (h : j ≠ i) :
    sym_at (l.set i s) j = sym_at l j := by
  induction l generalizing i j with
  | nil => rfl
  | cons x r ih =>
    cases i with
    | zero =>
      cases j with
      | zero => exact absurd rfl h
      | succ m => rfl
    | succ n =>
      cases j with
      | zero => rfl
      | succ m => exact ih n m (fun hh => h (by rw [hh]))

theorem sym_at_set_self (l : List Symbol) (i : Nat) (s : Symbol) (h : i < l.length) :
    sym_at (l.set i s) i = s := by
  induction l generalizing i with
  | nil => simp at h
  | cons x r ih =>
    cases i with
    | zero => rfl
    | succ n => exact ih n (by simpa using h)

theorem list_set_oob (l : List Symbol) (i : Nat) (s : Symbol) (h : l.length ≤ i) :
    l.set i s = l := by
  induction l generalizing i with
  | nil => rfl
  | cons x r ih =>
    cases i with
    | zero => simp at h
    | succ n =>
      show x :: r.set n s = x :: r
      rw [ih n (by simpa using h)]

theorem sym_at_oob (l : List Symbol) (i : Nat) (h : l.length ≤ i) :
    sym_at l i = blank_symbol := by
  induction l generalizing i with
  | nil => rfl
  | cons x r ih =>
    cases i with
    | zero => simp at h
    | succ n => exact ih n (by simpa using h)

theorem sym_at_append_lt (l : List Symbol) (s : Symbol) (i : Nat) (h : i < l.length) :
    sym_at (l ++ [s]) i = sym_at l i := by
  induction l generalizing i with
  | nil => simp at h
  | cons x r ih =>
    cases i with
    | zero => rfl
    | succ n => exact ih n (by simpa using h)

theorem sym_at_append_len (l : List Symbol) (s : Symbol) :
    sym_at (l ++ [s]) l.length = s := by
  induction l with
  | nil => rfl
  | cons x r ih => exact ih

theorem sym_at_append_gt (l : List Symbol) (s : Symbol) (i : Nat) (h : l.length < i) :
    sym_at (l ++ [s]) i = blank_symbol := by
  induction l generalizing i with
  | nil =>
    cases i with
    | zero => simp at h
    | succ n => rfl
  | cons x r ih =>
    cases i with
    | zero => simp at h
    | succ n => exact ih n (by simpa using h)

/-! Finalize idempotence machinery (C7). -/

/-- The shape of the finalize action on a record, a function of its
source alone: none = fatal, some false = skipped, some true = emitted. -/
def finalize_class (src : SymbolSource) : Option Bool :=
  match src with
  | SymbolSource.FROM_OBJECT obj shnum =>
    if SHN_LORESERVE ≤ shnum ∧ shnum ≠ SHN_ABS then none
    else if obj.is_dynamic = true then some true
    else if shnum = SHN_UNDEF then some true
    else if shnum = SHN_ABS then some true
    else
      match obj.output_sections.lookup shnum with
      | none => some false
      | some _ => some true
  | _ => some true

theorem finalize_sym_value_eq_class (s : Symbol) :
    (match finalize_sym_value s with
     | Except.error _ => none
     | Except.ok none => some false
     | Except.ok (some _) => some true) = finalize_class s.source_ := by
  cases hs : s.source_ with
  | FROM_OBJECT obj shnum =>
    simp only [finalize_sym_value, finalize_class, hs]
    split_ifs <;> try rfl
    cases List.lookup shnum obj.output_sections <;> rfl
  | IN_OUTPUT_DATA od fe => simp [finalize_sym_value, finalize_class, hs]
  | IN_OUTPUT_SEGMENT os base => simp [finalize_sym_value, finalize_class, hs]
  | CONSTANT => simp [finalize_sym_value, finalize_class, hs]

theorem finalize_class_error (s : Symbol) (h : finalize_class s.source_ = none) :
    ∃ e, finalize_sym_value s = Except.error e := by
  have hq := finalize_sym_value_eq_class s
  rw [h] at hq
  cases hfv : finalize_sym_value s with
  | error e => exact ⟨e, rfl⟩
  | ok o =>
    rw [hfv] at hq
    cases o <;> simp at hq

theorem finalize_class_skip (s : Symbol) (h : finalize_class s.source_ = some false) :
    finalize_sym_value s = Except.ok none := by
  have hq := finalize_sym_value_eq_class s
  rw [h] at hq
  cases hfv : finalize_sym_value s with
  | error e => rw [hfv] at hq; simp at hq
  | ok o =>
    rw [hfv] at hq
    cases o with
    | none => rfl
    | some v => simp at hq

theorem finalize_class_emit (s : Symbol) (h : finalize_class s.source_ = some true) :
    ∃ v, finalize_sym_value s = Except.ok (some v) := by
  have hq := finalize_sym_value_eq_class s
  rw [h] at hq
  cases hfv : finalize_sym_value s with
  | error e => rw [hfv] at hq; simp at hq
  | ok o =>
    rw [hfv] at hq
    cases o with
    | none => simp at hq
    | some v => exact ⟨v, rfl⟩

/-- Two arenas with the same record sources everywhere. -/
def same_sources (a b : List Symbol) : Prop :=
  ∀ i, (sym_at a i).source_ = (sym_at b i).source_

theorem same_sources_refl (a : List Symbol) : same_sources a a := fun _ => rfl

theorem same_sources_trans {a b c : List Symbol} (h1 : same_sources a b)
    (h2 : same_sources b c) : same_sources a c :=
  fun i => (h1 i).trans (h2 i)

theorem same_sources_symm {a b : List Symbol} (h : same_sources a b) :
    same_sources b a :=
  fun i => (h i).symm

theorem same_sources_set_value (l : List Symbol) (i : Nat) (s : Symbol)
    (hsrc : s.source_ = (sym_at l i).source_) :
    same_sources l (l.set i s) := by
  intro j
  by_cases h : j = i
  · subst h
    by_cases hl : j < l.length
    · rw [sym_at_set_self l j s hl, hsrc]
    · rw [list_set_oob l j s (Nat.le_of_not_lt hl)]
  · rw [sym_at_set_ne l i s j h]

/-- Each ok run of the finalize loop leaves every record's source
unchanged (only values are assigned). -/
theorem sized_finalize_loop_sources (entries : List ((Nat × Nat) × Nat))
    (syms : List Symbol) (pool : List SymName) (off count sym_size : Nat)
    (r : List Symbol × List SymName × Nat × Nat)
    (h : sized_finalize_loop syms entries pool off count sym_size = Except.ok r) :
    same_sources syms r.1 := by
  induction entries generalizing syms pool off count with
  | nil =>
    simp only [sized_finalize_loop] at h
    cases h
    exact same_sources_refl _
  | cons e rest ih =>
    simp only [sized_finalize_loop] at h
    cases hv : finalize_sym_value (sym_at syms e.2) with
    | error err => rw [hv] at h; cases h
    | ok o =>
      cases o with
      | none =>
        simp only [hv] at h
        exact ih syms pool off count h
      | some v =>
        simp only [hv] at h
        exact same_sources_trans
          (same_sources_set_value syms e.2 { sym_at syms e.2 with value_ := v } rfl)
          (ih _ _ _ _ h)

/-- A second run of the finalize loop over an arena with the same
sources — in particular over the arena the first run produced — takes
the same skip decisions, so it succeeds with the same end offset and
the same count. -/
theorem sized_finalize_loop_congr (entries : List ((Nat × Nat) × Nat))
    (syms1 syms2 : List Symbol) (pool1 pool2 : List SymName) (off count sym_size : Nat)
    (r1 : List Symbol × List SymName × Nat × Nat)
    (hs : same_sources syms1 syms2)
    (h1 : sized_finalize_loop syms1 entries pool1 off count sym_size = Except.ok r1) :
    ∃ r2, sized_finalize_loop syms2 entries pool2 off count sym_size = Except.ok r2
      ∧ r2.2.2.1 = r1.2.2.1 ∧ r2.2.2.2 = r1.2.2.2 := by
  induction entries generalizing syms1 syms2 pool1 pool2 off count with
  | nil =>
    simp only [sized_finalize_loop] at h1
    cases h1
    exact ⟨_, rfl, rfl, rfl⟩
  | cons e rest ih =>
    simp only [sized_finalize_loop] at h1 ⊢
    cases hcl : finalize_class (sym_at syms1 e.2).source_ with
    | none =>
      obtain ⟨err, herr⟩ := finalize_class_error _ hcl
      simp only [herr] at h1
      simp at h1
    | some b =>
      cases b with
      | false =>
        have h1' := finalize_class_skip _ hcl
        have h2' := finalize_class_skip (sym_at syms2 e.2) (by rw [← hs e.2]; exact hcl)
        simp only [h1'] at h1
        simp only [h2']
        exact ih syms1 syms2 pool1 pool2 off count hs h1
      | true =>
        obtain ⟨v1, hv1⟩ := finalize_class_emit _ hcl
        obtain ⟨v2, hv2⟩ := finalize_class_emit (sym_at syms2 e.2)
          (by rw [← hs e.2]; exact hcl)
        simp only [hv1] at h1
        simp only [hv2]
        have hs' : same_sources (syms1.set e.2 { sym_at syms1 e.2 with value_ := v1 })
            (syms2.set e.2 { sym_at syms2 e.2 with value_ := v2 }) :=
          same_sources_trans
            (same_sources_trans
              (same_sources_symm (same_sources_set_value syms1 e.2 _ rfl)) hs)
            (same_sources_set_value syms2 e.2 _ rfl)
        exact ih _ _ _ _ _ _ hs' h1

/-- C7 as amended.  Running sized_finalize a second time, with the same
start offset and the same (already populated) string pool, on a state
the first run produced succeeds and yields the same output_count_ and
the same end offset — the idempotence claim survives only for the
bookkeeping, not for the record values, which the counterexample shows
are shifted again by their address bases. -/
theorem c7_amended_finalize_count_offset (st : Symbol_table) (off : Nat)
    (pool : List SymName) (size : Nat) (st1 : Symbol_table) (pool1 : List SymName)
    (off1 : Nat)
    (h : st.sized_finalize off pool size = Except.ok (st1, pool1, off1)) :
    ∃ st2 pool2, st1.sized_finalize off pool1 size = Except.ok (st2, pool2, off1)
      ∧ st2.output_count_ = st1.output_count_ := by
  simp only [Symbol_table.sized_finalize] at h
  cases hl1 : sized_finalize_loop st.syms_ st.table_ pool (align_address off (size / 8)) 0
      (elf_sym_size size) with
  | error e => rw [hl1] at h; cases h
  | ok r1 =>
    rw [hl1] at h
    simp only [Except.ok.injEq, Prod.mk.injEq] at h
    obtain ⟨hst1, hpool1, hoff1⟩ := h
    subst hst1
    subst hpool1
    subst hoff1
    have hsrc := sized_finalize_loop_sources st.table_ st.syms_ pool
      (align_address off (size / 8)) 0 (elf_sym_size size) r1 hl1
    obtain ⟨r2, hl2, hoff, hcount⟩ := sized_finalize_loop_congr st.table_ st.syms_ r1.1
      pool r1.2.1 (align_address off (size / 8)) 0 (elf_sym_size size) r1 hsrc hl1
    simp only [Symbol_table.sized_finalize, hl2]
    exact ⟨{ st with syms_ := r2.1, offset_ := align_address off (size / 8), output_count_ := r2.2.2.2 }, r2.2.1, by rw [hoff], by simpa using hcount⟩

/-- The result of the first finalize of the one-record output-data
state (used to apply the amended C7 theorem at a concrete input). -/
def cex_final_result : Symbol_table × List SymName × Nat :=
  match cex_final_state.sized_finalize 0 [] 32 with
  | Except.ok r => r
  | Except.error _ => (empty_table, [], 0)

/-- Witness for the amended C7: the second finalize of the concrete
one-record state succeeds with the same count and end offset. -/
theorem c7_amended_finalize_count_offset_witness :
    ∃ st2 pool2, cex_final_result.1.sized_finalize 0 cex_final_result.2.1 32
        = Except.ok (st2, pool2, cex_final_result.2.2)
      ∧ st2.output_count_ = cex_final_result.1.output_count_ :=
  c7_amended_finalize_count_offset cex_final_state 0 [] 32 cex_final_result.1
    cex_final_result.2.1 cex_final_result.2.2 (by decide)

/-! Commons-list invariant machinery (C8). -/

/-- The surviving half of the commons-list invariant: every record
currently classified COMMON appears in commons_. -/
def commons_complete (st : Symbol_table) : Prop :=
  ∀ i, (sym_at st.syms_ i).is_common = true → i ∈ st.commons_

theorem is_common_set_forwarder (s : Symbol) :
    (set_forwarder s).is_common = s.is_common := rfl

theorem resolve_into_commons (st : Symbol_table) (idx : Nat) (sym : ElfSymData)
    (obj : InputObject) : (st.resolve_into idx sym obj).commons_ = st.commons_ := rfl

theorem resolve_into_sym_ne (st : Symbol_table) (idx : Nat) (sym : ElfSymData)
    (obj : InputObject) (j : Nat) (h : j ≠ idx) :
    sym_at (st.resolve_into idx sym obj).syms_ j = sym_at st.syms_ j := by
  simp only [Symbol_table.resolve_into]
  exact sym_at_set_ne _ _ _ _ h

theorem make_forwarder_commons (st : Symbol_table) (a b : Nat) :
    (st.make_forwarder a b).commons_ = st.commons_ := rfl

theorem make_forwarder_common_at (st : Symbol_table) (a b j : Nat) :
    (sym_at (st.make_forwarder a b).syms_ j).is_common
      = (sym_at st.syms_ j).is_common := by
  simp only [Symbol_table.make_forwarder]
  by_cases h : j = a
  · subst h
    by_cases hl : j < st.syms_.length
    · rw [sym_at_set_self _ _ _ hl, is_common_set_forwarder]
    · rw [list_set_oob _ _ _ (Nat.le_of_not_lt hl)]
  · rw [sym_at_set_ne _ _ _ _ h]

theorem handle_def_existing_commons (st : Symbol_table) (nk ret : Nat) :
    (st.handle_def_existing nk ret).commons_ = st.commons_ := by
  cases hf : table_find st.table_ (nk, 0) with
  | none => simp only [Symbol_table.handle_def_existing, hf]
  | some old =>
    simp only [Symbol_table.handle_def_existing, hf]
    by_cases ho : old = ret
    · simp [ho]
    · simp only [if_neg ho]
      rfl

theorem handle_def_existing_common_at (st : Symbol_table) (nk ret j : Nat)
    (h : j ≠ ret) :
    (sym_at (st.handle_def_existing nk ret).syms_ j).is_common
      = (sym_at st.syms_ j).is_common := by
  cases hf : table_find st.table_ (nk, 0) with
  | none => simp only [Symbol_table.handle_def_existing, hf]
  | some old =>
    simp only [Symbol_table.handle_def_existing, hf]
    by_cases ho : old = ret
    · simp [ho]
    · simp only [if_neg ho]
      show (sym_at (((st.resolve_into ret _ _).make_forwarder old ret).syms_) j).is_common
        = (sym_at st.syms_ j).is_common
      rw [make_forwarder_common_at, resolve_into_sym_ne _ _ _ _ _ h]

theorem finish_add_syms (st : Symbol_table) (r : Nat) (wu wc : Bool) :
    (st.finish_add r wu wc).syms_ = st.syms_ := by
  simp only [Symbol_table.finish_add]
  split_ifs <;> rfl

theorem finish_add_mem (st : Symbol_table) (r : Nat) (wu wc : Bool) (i : Nat)
    (h : i ∈ st.commons_) : i ∈ (st.finish_add r wu wc).commons_ := by
  simp only [Symbol_table.finish_add]
  split_ifs <;> simp [h, List.mem_append]

theorem finish_add_new (st : Symbol_table) (r : Nat) (wu : Bool)
    (h : (sym_at st.syms_ r).is_common = true) :
    r ∈ (st.finish_add r wu false).commons_ := by
  simp only [Symbol_table.finish_add]
  simp [h, apply_ite, List.mem_append]

/-- The master step for finish_add: if the pre-state satisfies the
invariant, the commons list is unchanged, commonness of every record
other than the returned one is unchanged, and a true was_common flag
really means the record was already COMMON, then the post-state
satisfies the invariant. -/
theorem finish_add_complete (st0 st1 : Symbol_table) (ret : Nat) (wu wc : Bool)
    (hinv : commons_complete st0)
    (hcom : st1.commons_ = st0.commons_)
    (hje : ∀ j, j ≠ ret →
      (sym_at st1.syms_ j).is_common = (sym_at st0.syms_ j).is_common)
    (hwc : wc = true → (sym_at st0.syms_ ret).is_common = true) :
    commons_complete (st1.finish_add ret wu wc) := by
  intro i hi
  rw [finish_add_syms] at hi
  by_cases hir : i = ret
  · subst hir
    cases hwcv : wc with
    | false => exact finish_add_new st1 i wu hi
    | true =>
      have hmem := hinv i (hwc hwcv)
      rw [← hcom] at hmem
      exact finish_add_mem st1 i wu true i hmem
  · have hi0 : (sym_at st0.syms_ i).is_common = true := by
      rw [← hje i hir]
      exact hi
    have hmem := hinv i hi0
    rw [← hcom] at hmem
    exact finish_add_mem st1 ret wu wc i hmem

/-- Appending a record leaves the commonness of every other index
unchanged. -/
theorem sym_at_append_common (l : List Symbol) (s : Symbol) (j : Nat)
    (hj : j ≠ l.length) :
    (sym_at (l ++ [s]) j).is_common = (sym_at l j).is_common := by
  rcases Nat.lt_trichotomy j l.length with hlt | heq | hgt
  · rw [sym_at_append_lt _ _ _ hlt]
  · exact absurd heq hj
  · rw [sym_at_append_gt _ _ _ hgt, sym_at_oob _ _ (Nat.le_of_lt hgt)]

/-- Overwriting one arena slot with a non-COMMON record preserves the
invariant. -/
theorem commons_complete_set_noncommon (st : Symbol_table) (idx : Nat) (s : Symbol)
    (hs : s.is_common = false) (hinv : commons_complete st) :
    commons_complete { st with syms_ := st.syms_.set idx s } := by
  intro i hi
  have hi' : (sym_at (st.syms_.set idx s) i).is_common = true := hi
  show i ∈ st.commons_
  by_cases h : i = idx
  · subst h
    by_cases hl : i < st.syms_.length
    · rw [sym_at_set_self _ _ _ hl] at hi'
      rw [hs] at hi'
      cases hi'
    · rw [list_set_oob _ _ _ (Nat.le_of_not_lt hl)] at hi'
      exact hinv i hi'
  · rw [sym_at_set_ne _ _ _ _ h] at hi'
    exact hinv i hi'

/-- add_from_object preserves the invariant: every transition into the
COMMON class is pushed by the final bookkeeping, and no other record's
classification changes during the call. -/
theorem add_from_object_commons_complete (st : Symbol_table) (obj : InputObject)
    (name : SymName) (nk : Nat) (version : Option SymName) (vk : Nat) (defv : Bool)
    (sym : ElfSymData) (hinv : commons_complete st) :
    commons_complete (st.add_from_object obj name nk version vk defv sym).1 := by
  unfold Symbol_table.add_from_object
  cases hf : table_find st.table_ (nk, vk) with
  | some ret =>
    simp only [hf]
    refine finish_add_complete st _ ret _ _ hinv ?_ ?_ (fun h => h)
    · cases defv with
      | false => simp [Symbol_table.resolve_into]
      | true => simp [handle_def_existing_commons, Symbol_table.resolve_into]
    · intro j hj
      cases defv with
      | false =>
        simp only [Bool.false_eq_true, if_false]
        rw [resolve_into_sym_ne _ _ _ _ _ hj]
      | true =>
        simp only [if_true]
        rw [handle_def_existing_common_at _ _ _ _ hj, resolve_into_sym_ne _ _ _ _ _ hj]
  | none =>
    simp only [hf]
    cases hf0 : (if defv then table_find st.table_ (nk, 0) else none) with
    | some old =>
      simp only [hf0]
      refine finish_add_complete st _ old _ _ hinv ?_ ?_ (fun h => nomatch h)
      · simp [Symbol_table.resolve_into]
      · intro j hj
        show (sym_at (st.resolve_into old sym obj).syms_ j).is_common
          = (sym_at st.syms_ j).is_common
        rw [resolve_into_sym_ne _ _ _ _ _ hj]
    | none =>
      simp only [hf0]
      by_cases hrej : obj.target.has_make_symbol = true ∧ obj.target.make_symbol_some = false
      · simp only [if_pos hrej]
        exact hinv
      · simp only [if_neg hrej]
        cases defv with
        | false =>
          refine finish_add_complete st _ st.syms_.length _ _ hinv rfl ?_
            (fun h => nomatch h)
          intro j hj
          show (sym_at (st.syms_ ++ [init_symbol_from_object name version obj sym])
              j).is_common = (sym_at st.syms_ j).is_common
          exact sym_at_append_common _ _ _ hj
        | true =>
          refine finish_add_complete st _ st.syms_.length _ _ hinv rfl ?_
            (fun h => nomatch h)
          intro j hj
          show (sym_at (st.syms_ ++ [init_symbol_from_object name version obj sym])
              j).is_common = (sym_at st.syms_ j).is_common
          exact sym_at_append_common _ _ _ hj

theorem define_special_symbol_commons (st : Symbol_table) (target : Target)
    (name : SymName) (oir : Bool) :
    (st.define_special_symbol target name oir).1.commons_ = st.commons_ := by
  simp only [Symbol_table.define_special_symbol, Symbol_table.define_check_oldsym]
  split
  · split
    · rfl
    · split
      · rfl
      · split <;> rfl
  · split
    · split <;> rfl
    · split <;> rfl

theorem define_special_symbol_common_at (st : Symbol_table) (target : Target)
    (name : SymName) (oir : Bool) (j : Nat) :
    (sym_at (st.define_special_symbol target name oir).1.syms_ j).is_common
      = (sym_at st.syms_ j).is_common := by
  simp only [Symbol_table.define_special_symbol, Symbol_table.define_check_oldsym]
  split
  · split
    · rfl
    · split
      · rfl
      · split <;> rfl
  · split
    · split <;> rfl
    · split
      · rfl
      · show (sym_at (st.syms_ ++ [blank_symbol]) j).is_common
          = (sym_at st.syms_ j).is_common
        rcases Nat.lt_trichotomy j st.syms_.length with hlt | heq | hgt
        · rw [sym_at_append_lt _ _ _ hlt]
        · rw [heq, sym_at_append_len, sym_at_oob _ _ (Nat.le_refl _)]
        · rw [sym_at_append_gt _ _ _ hgt, sym_at_oob _ _ (Nat.le_of_lt hgt)]

/-- The shared shape of the three sized define workers: whatever record
the special-symbol machinery hands back is overwritten with a
linker-defined (hence non-COMMON) record, so the invariant survives. -/
theorem define_worker_commons_complete (st : Symbol_table) (target : Target)
    (name : SymName) (oir : Bool) (s : Symbol) (hs : s.is_common = false)
    (hinv : commons_complete st) :
    commons_complete
      (match st.define_special_symbol target name oir with
       | (st1, none) => st1
       | (st1, some idx) => { st1 with syms_ := st1.syms_.set idx s }) := by
  cases hd : st.define_special_symbol target name oir with
  | mk st1 r =>
    have h2 : st1.commons_ = st.commons_ := by
      have h := define_special_symbol_commons st target name oir
      rw [hd] at h
      exact h
    have hinv1 : commons_complete st1 := by
      intro i hi
      have h1 : (sym_at st1.syms_ i).is_common = (sym_at st.syms_ i).is_common := by
        have h := define_special_symbol_common_at st target name oir i
        rw [hd] at h
        exact h
      rw [h2]
      exact hinv i (by rw [← h1]; exact hi)
    cases r with
    | none => exact hinv1
    | some idx => exact commons_complete_set_noncommon st1 idx s hs hinv1

theorem do_define_in_output_data_commons_complete (st : Symbol_table) (target : Target)
    (name : SymName) (od : OutputData) (value symsize stype binding vis nonvis : Nat)
    (fe oir : Bool) (hinv : commons_complete st) :
    commons_complete (st.do_define_in_output_data target name od value symsize stype
      binding vis nonvis fe oir) := by
  unfold Symbol_table.do_define_in_output_data
  exact define_worker_commons_complete st target name oir _ rfl hinv

theorem do_define_in_output_segment_commons_complete (st : Symbol_table)
    (target : Target) (name : SymName) (os : OutputSegment)
    (value symsize stype binding vis nonvis : Nat) (base : SegmentOffsetBase)
    (oir : Bool) (hinv : commons_complete st) :
    commons_complete (st.do_define_in_output_segment target name os value symsize stype
      binding vis nonvis base oir) := by
  unfold Symbol_table.do_define_in_output_segment
  exact define_worker_commons_complete st target name oir _ rfl hinv

theorem do_define_as_constant_commons_complete (st : Symbol_table) (target : Target)
    (name : SymName) (value symsize stype binding vis nonvis : Nat)
    (oir : Bool) (hinv : commons_complete st) :
    commons_complete (st.do_define_as_constant target name value symsize stype
      binding vis nonvis oir) := by
  unfold Symbol_table.do_define_as_constant
  exact define_worker_commons_complete st target name oir _ rfl hinv

theorem step_op_commons_complete (st : Symbol_table) (op : SymtabOp)
    (hinv : commons_complete st) : commons_complete (step_op st op) := by
  cases op with
  | addObj obj name version defv sym =>
    cases version with
    | none =>
      exact add_from_object_commons_complete _ obj name _ none 0 defv sym hinv
    | some v =>
      exact add_from_object_commons_complete _ obj name _ (some v) _ defv sym hinv
  | defData target name od value symsize stype binding vis nonvis fe oir =>
    exact do_define_in_output_data_commons_complete st target name od value symsize
      stype binding vis nonvis fe oir hinv
  | defSegment target name os value symsize stype binding vis nonvis base oir =>
    exact do_define_in_output_segment_commons_complete st target name os value symsize
      stype binding vis nonvis base oir hinv
  | defConstant target name value symsize stype binding vis nonvis oir =>
    exact do_define_as_constant_commons_complete st target name value symsize stype
      binding vis nonvis oir hinv

theorem commons_complete_run (ops : List SymtabOp) : commons_complete (run_ops ops) := by
  unfold run_ops
  have h : ∀ st, commons_complete st → commons_complete (ops.foldl step_op st) := by
    induction ops with
    | nil => exact fun st h => h
    | cons op rest ih => exact fun st h => ih _ (step_op_commons_complete st op h)
  exact h empty_table (fun i hi => nomatch hi)

/-- C8 as amended.  After any sequence of add_from_object calls and
linker-definition operations, every record whose current classification
is COMMON appears in the commons list (the converse fails: the list is
append-only, may retain records that have since left the COMMON class,
and may list a record more than once — see the counterexample). -/
theorem c8_amended_commons_contains_common (ops : List SymtabOp) (i : Nat)
    (h : (sym_at (run_ops ops).syms_ i).is_common = true) :
    i ∈ (run_ops ops).commons_ :=
  commons_complete_run ops i h

/-- Witness for the amended C8: the COMMON record created by a single
ingestion operation is on the commons list. -/
theorem c8_amended_commons_contains_common_witness :
    (sym_at (run_ops [SymtabOp.addObj static_obj [102] none false common_global_sym]).syms_
      0).is_common = true
    ∧ 0 ∈ (run_ops [SymtabOp.addObj static_obj [102] none false common_global_sym]).commons_ :=
  ⟨by decide,
   c8_amended_commons_contains_common
     [SymtabOp.addObj static_obj [102] none false common_global_sym] 0 (by decide)⟩

end gold
